import Mathlib

/-!
Verification of the resource-form controller in `src/modules/states/StateForm.tsx`.

The module is embedded shallowly: the pure helpers (`prettifyFieldName`,
`extractErrorMessage`) become Lean functions on `String` and `List Char`; the
submit pipeline, the mutation success and error handlers, the render branches
and the construction step become explicit functions producing effect lists or
view values.
-/

namespace StateForm

/-- The two form modes: the `mode` component property is the literal union
`"create" | "edit"` in the source. -/
inductive Mode
  | create
  | edit
deriving DecidableEq, BEq, Repr

/-! ### prettifyFieldName (StateForm.tsx lines 42-52) -/

/-- Embedding of `key.split("_")` on a character list: each underscore separates segments,
and adjacent or edge underscores yield empty segments, as in JavaScript. -/
def splitOnUnderscore : List Char → List (List Char)
  | [] => [[]]
  | c :: t =>
    if c = '_' then [] :: splitOnUnderscore t
    else
      match splitOnUnderscore t with
      | [] => [[c]]
      | s :: ss => (c :: s) :: ss

/-- Embedding of `parts.length > 1 ? parts[1] : key`: the second segment when the split
produced more than one, the whole key otherwise. -/
def selectSegment (key : List Char) : List Char :=
  match splitOnUnderscore key with
  | _ :: second :: _ => second
  | _ => key

/-- Embedding of `field.replace(/(key|id)$/i, "")`: remove one trailing `key` or `id`,
comparing case-insensitively. At most one of the two alternatives can match
at the end of the string, so checking `key` first then `id` is faithful. -/
def stripSuffixKeyId (l : List Char) : List Char :=
  if (l.reverse.take 3).map Char.toLower = ['y', 'e', 'k'] then
    l.take (l.length - 3)
  else if (l.reverse.take 2).map Char.toLower = ['d', 'i'] then
    l.take (l.length - 2)
  else l

/-- Embedding of `field.replace(/([A-Z])/g, " $1")`: a space is inserted before every
ASCII uppercase letter (`Char.isUpper` is exactly the ASCII range `A`-`Z`,
matching the regex class). -/
def spaceBeforeUppercase : List Char → List Char
  | [] => []
  | c :: t => (if c.isUpper then [' ', c] else [c]) ++ spaceBeforeUppercase t

/-- Embedding of `.trim()`: drop whitespace from both ends. -/
def trimChars (l : List Char) : List Char :=
  ((l.dropWhile Char.isWhitespace).reverse.dropWhile Char.isWhitespace).reverse

/-- Embedding of `field.charAt(0).toUpperCase() + field.slice(1)`: upper-case the first
character; the empty string stays empty. -/
def capitalizeFirst : List Char → List Char
  | [] => []
  | c :: t => c.toUpper :: t

/-- Character-list core of `prettifyFieldName`, composing the four steps in
source order. -/
def prettifyFieldNameCore (key : List Char) : List Char :=
  capitalizeFirst (trimChars (spaceBeforeUppercase (stripSuffixKeyId (selectSegment key))))

/-- The function `prettifyFieldName` from StateForm.tsx. -/
def prettifyFieldName (key : String) : String :=
  ⟨prettifyFieldNameCore key.data⟩

/-- The camel-case step as the specification words it: a space goes before
each INTERNAL uppercase letter, i.e. every uppercase letter after the first
character. -/
def spaceBeforeInternalUppercase : List Char → List Char
  | [] => []
  | c :: t => c :: spaceBeforeUppercase t

/-- The error-label mapping exactly as the specification describes it,
step by step; used to compare against the implementation. -/
def prettifyFieldNameFromSpec (key : String) : String :=
  ⟨capitalizeFirst (trimChars (spaceBeforeInternalUppercase
      (stripSuffixKeyId (selectSegment key.data))))⟩

/-! ### extractErrorMessage (StateForm.tsx lines 54-66) -/

/-- Embedding of `stateFormSchema`: `z.string().min(1, ...).max(255, ...)` on `stateName`.
Returns the first violated rule message, or nothing when the value passes. -/
def zodValidateStateName (name : String) : Option String :=
  if name.length < 1 then some "State name is required"
  else if 255 < name.length then some "State name must not exceed 255 characters"
  else none

/-- The network operations the module can issue, with their path and payload. -/
inductive NetworkCall
  | post (path : String) (stateName : String)
  | put (path : String) (stateName : String)
  | get (path : String)
deriving DecidableEq, Repr

/-- The path segment a JavaScript template literal renders for the id. -/
def idPathSegment : Option String → String
  | some s => s
  | none => "undefined"

/-- Embedding of `onSubmit`: create mode posts to `/api/states`, edit mode puts to
`/api/states/` followed by the id. -/
def onSubmitCall (mode : Mode) (stateId : Option String) (name : String) : NetworkCall :=
  match mode with
  | Mode.create => NetworkCall.post "/api/states" name
  | Mode.edit => NetworkCall.put ("/api/states/" ++ idPathSegment stateId) name

/-- Outcome of one submit attempt: the network calls issued and the local
field errors set by the resolver. -/
structure SubmitOutcome where
  networkCalls : List NetworkCall
  fieldErrors : List (String × String)
deriving DecidableEq, Repr

/-- Embedding of `form.handleSubmit(onSubmit)`: the resolver validates against
`stateFormSchema`; a failing value sets the field error and blocks the
network, a passing value reaches `onSubmit` which issues exactly one call. -/
def handleSubmit (mode : Mode) (stateId : Option String) (name : String) : SubmitOutcome :=
  match zodValidateStateName name with
  | some msg => { networkCalls := [], fieldErrors := [("stateName", msg)] }
  | none => { networkCalls := [onSubmitCall mode stateId name], fieldErrors := [] }

/-! ### Success handlers (createMutation lines 123-132, updateMutation 146-155) -/

/-- A cache key passed to `queryClient.invalidateQueries`: either the listing
key `["states"]` or the single-item key `["state", stateId]`. -/
inductive QueryKey
  | statesList
  | stateItem (stateId : Option String)
deriving DecidableEq, Repr

/-- The observable side effects of the success and error handlers, in order. -/
inductive FormEffect
  | toastSuccess (msg : String)
  | toastError (msg : String)
  | invalidateQueries (key : QueryKey)
  | formReset (stateName : String)
  | completionCallback
  | navigate (path : String)
deriving DecidableEq, Repr

/-- Embedding of `createMutation.onSuccess`: success toast, invalidate the listing cache,
reset the form to its default (`stateName` = empty), then either the supplied
callback or navigation to `/states`. -/
def createOnSuccessEffects (hasOnSuccess : Bool) : List FormEffect :=
  [FormEffect.toastSuccess "State created successfully!",
   FormEffect.invalidateQueries QueryKey.statesList,
   FormEffect.formReset ""] ++
  (if hasOnSuccess then [FormEffect.completionCallback]
   else [FormEffect.navigate "/states"])

/-- Embedding of `updateMutation.onSuccess`: success toast, invalidate the listing cache
and the single-item cache for this id, then either the supplied callback or
navigation to `/states`; no form reset. -/
def updateOnSuccessEffects (hasOnSuccess : Bool) (stateId : Option String) : List FormEffect :=
  [FormEffect.toastSuccess "State updated successfully!",
   FormEffect.invalidateQueries QueryKey.statesList,
   FormEffect.invalidateQueries (QueryKey.stateItem stateId)] ++
  (if hasOnSuccess then [FormEffect.completionCallback]
   else [FormEffect.navigate "/states"])

/-- The success-handler effect list of the mode that just submitted. -/
def onSuccessEffects (mode : Mode) (hasOnSuccess : Bool) (stateId : Option String) :
    List FormEffect :=
  match mode with
  | Mode.create => createOnSuccessEffects hasOnSuccess
  | Mode.edit => updateOnSuccessEffects hasOnSuccess stateId

/-- Effect classifiers used to count occurrences. -/
def isSuccessToast : FormEffect → Bool
  | FormEffect.toastSuccess _ => true
  | _ => false

def isListInvalidation : FormEffect → Bool
  | FormEffect.invalidateQueries QueryKey.statesList => true
  | _ => false

def isItemInvalidation : FormEffect → Bool
  | FormEffect.invalidateQueries (QueryKey.stateItem _) => true
  | _ => false

def isCallbackEffect : FormEffect → Bool
  | FormEffect.completionCallback => true
  | _ => false

def isNavigateEffect : FormEffect → Bool
  | FormEffect.navigate _ => true
  | _ => false

/-- A completion action: the supplied callback or the default navigation. -/
def isCompletionEffect (e : FormEffect) : Bool :=
  isCallbackEffect e || isNavigateEffect e

def isFormResetEffect : FormEffect → Bool
  | FormEffect.formReset _ => true
  | _ => false

/-! ### Loading flags, submit trigger, render branches (lines 181-241) -/

/-- The transient flags of one mounted form instance. -/
structure FormUIState where
  mode : Mode
  createPending : Bool
  updatePending : Bool
  isFetchingState : Bool
  fetchError : Bool
deriving DecidableEq, Repr

/-- Embedding of `isFormLoading = createMutation.isPending || updateMutation.isPending ||
isFetchingState` (line 181). -/
def isFormLoading (s : FormUIState) : Bool :=
  s.createPending || s.updatePending || s.isFetchingState

/-- A submission is in flight when either mutation is pending. -/
def isSubmitting (s : FormUIState) : Bool :=
  s.createPending || s.updatePending

/-- The submit button carries `disabled = isFormLoading` (line 238). -/
def submitTriggerDisabled (s : FormUIState) : Bool :=
  isFormLoading s

/-- Pressing the submit trigger: a disabled button fires no submit event, an
enabled one runs `form.handleSubmit(onSubmit)`. Returns the network calls the
press causes. -/
def pressSubmitTrigger (s : FormUIState) (stateId : Option String) (name : String) :
    List NetworkCall :=
  if submitTriggerDisabled s then []
  else (handleSubmit s.mode stateId name).networkCalls

/-- The three top-level render branches of the component (lines 184-246). -/
inductive RenderedView
  | loadingView
  | fetchFailedView
  | formView
deriving DecidableEq, Repr

/-- The early returns of the component body: the loading branch when an edit
fetch is in flight, the fetch-failed branch when the edit fetch errored, the
form otherwise. -/
def render (s : FormUIState) : RenderedView :=
  if s.mode == Mode.edit && s.isFetchingState then RenderedView.loadingView
  else if s.mode == Mode.edit && s.fetchError then RenderedView.fetchFailedView
  else RenderedView.formView

/-- Does the rendered view contain a submit trigger at all? Only the form
branch renders the form element and its submit button. -/
def viewOffersSubmit : RenderedView → Bool
  | RenderedView.formView => true
  | _ => false

/-- The interactive affordances of the fetch-failed branch: a single
`Back to States` button navigating to `/states` (lines 194-203). -/
def fetchFailedViewActions : List FormEffect :=
  [FormEffect.navigate "/states"]

/-- Embedding of `retry: false` in the `useQuery` options (line 106): the fetch is never
re-attempted after a failure. -/
def stateQueryRetry : Bool := false

/-! ### Construction and the edit-mode fetch (component body lines 75-116) -/

/-- The state the component holds right after its body ran once. -/
structure ControllerInit where
  mode : Mode
  stateId : Option String
  defaultStateName : String
  fetchQueryEnabled : Bool
deriving DecidableEq, Repr

/-- Embedding of `enabled: mode === "edit" && !!stateId` in the `useQuery` options. -/
def queryEnabled (mode : Mode) (stateId : Option String) : Bool :=
  mode == Mode.edit && stateId.isSome

/-- Constructing the component: the body registers hooks and returns; no code
path in lines 75-107 throws, whatever the mode and id, so construction always
succeeds. The result records the configuration the hooks received. -/
def constructStateForm (mode : Mode) (stateId : Option String) :
    Except String ControllerInit :=
  Except.ok
    { mode := mode
      stateId := stateId
      defaultStateName := ""
      fetchQueryEnabled := queryEnabled mode stateId }

/-- The `queryFn` body (lines 95-104): it throws `State ID is required` when
the id is absent, otherwise issues the GET. -/
def stateQueryFn (stateId : Option String) : Except String NetworkCall :=
  match stateId with
  | none => Except.error "State ID is required"
  | some s => Except.ok (NetworkCall.get ("/api/states/" ++ s))

/-- What mounting runs: the query function executes only when the query is
enabled; a disabled query runs nothing and raises nothing. -/
def mountFetchOutcome (mode : Mode) (stateId : Option String) :
    Option (Except String NetworkCall) :=
  if queryEnabled mode stateId then some (stateQueryFn stateId) else none

/-! ### Populating the field after an edit fetch (useEffect lines 110-116) -/

/-- The fetched resource: `stateName` is typed `string` but the code defends
against a null or undefined value with `|| ""`, so it is embedded as
optional. -/
structure StateData where
  id : Nat
  stateName : Option String
  createdAt : String
  updatedAt : String
deriving DecidableEq, Repr

/-- Embedding of `stateData.stateName || ""`: the only falsy string is the empty one, so a
present non-empty name passes through and everything else collapses to the
empty string. -/
def jsOrEmpty : Option String → String
  | some v => if v = "" then "" else v
  | none => ""

/-- The `useEffect` body: when data arrived and the mode is edit, the form is
reset with `stateName = stateData.stateName || ""`; otherwise the current
value stays. -/
def formValueAfterDataLoaded (mode : Mode) (stateData : Option StateData)
    (current : String) : String :=
  match stateData, mode with
  | some d, Mode.edit => jsOrEmpty d.stateName
  | _, _ => current

/-! ### Helper lemmas -/

/-- Trimming absorbs a leading space. -/
theorem trimChars_space_cons (l : List Char) : trimChars (' ' :: l) = trimChars l := by
  have h : Char.isWhitespace ' ' = true := rfl
  simp [trimChars, List.dropWhile_cons, h]

/-- Inserting a space before every uppercase letter and before only the
internal ones agree once the result is trimmed: the two candidate outputs
differ at most in one leading space. -/
theorem trim_space_all_eq_internal (l : List Char) :
    trimChars (spaceBeforeUppercase l) = trimChars (spaceBeforeInternalUppercase l) := by
  cases l with
  | nil => rfl
  | cons c t =>
    simp only [spaceBeforeUppercase, spaceBeforeInternalUppercase]
    cases hc : c.isUpper with
    | true => simp [hc, trimChars_space_cons]
    | false => simp [hc]

end StateForm

namespace StateForm

/-! ### Claim theorems -/

/-- C1: the error-label mapping splits the key on the underscore and keeps
the second segment when there are several, strips one trailing key or id
suffix case-insensitively, spaces the internal uppercase letters, trims and
capitalizes — exactly the algorithm the specification states — and maps
states_stateNameId to State Name and states_stateKey to State. -/
theorem c1_prettifyFieldName_follows_spec :
    (∀ key : String, prettifyFieldName key = prettifyFieldNameFromSpec key) ∧
    prettifyFieldName "states_stateNameId" = "State Name" ∧
    prettifyFieldName "states_stateKey" = "State" := by
  refine ⟨?_, by decide, by decide⟩
  intro key
  unfold prettifyFieldName prettifyFieldNameFromSpec prettifyFieldNameCore
  rw [trim_space_all_eq_internal]

/-- C2: submission issues exactly one network call, a post in create mode and
a put in edit mode, precisely when the name has length between 1 and 255;
otherwise it issues none and records a local field error on stateName. -/
theorem c2_submit_validation_gate :
    ∀ (mode : Mode) (stateId : Option String) (name : String),
      (handleSubmit mode stateId name).networkCalls =
        (if 1 ≤ name.length ∧ name.length ≤ 255
         then [onSubmitCall mode stateId name] else []) ∧
      (handleSubmit mode stateId name).fieldErrors.map Prod.fst =
        (if 1 ≤ name.length ∧ name.length ≤ 255 then [] else ["stateName"]) ∧
      onSubmitCall Mode.create stateId name = NetworkCall.post "/api/states" name ∧
      onSubmitCall Mode.edit stateId name =
        NetworkCall.put ("/api/states/" ++ idPathSegment stateId) name := by
  intro mode stateId name
  by_cases h1 : name.length < 1
  · have hc : ¬(1 ≤ name.length ∧ name.length ≤ 255) := by omega
    refine ⟨?_, ?_, rfl, rfl⟩ <;> simp [handleSubmit, zodValidateStateName, h1, hc]
  · by_cases h2 : 255 < name.length
    · have hc : ¬(1 ≤ name.length ∧ name.length ≤ 255) := by omega
      refine ⟨?_, ?_, rfl, rfl⟩ <;> simp [handleSubmit, zodValidateStateName, h1, h2, hc]
    · have hc : 1 ≤ name.length ∧ name.length ≤ 255 := by omega
      refine ⟨?_, ?_, rfl, rfl⟩ <;> simp [handleSubmit, zodValidateStateName, h1, h2, hc]

/-- C3: every successful create or update fires exactly one success toast,
invalidates the listing cache once, invalidates the single-item cache exactly
in edit mode, and fires exactly one completion action — the callback when one
was supplied, the default navigation otherwise, never both. -/
theorem c3_success_effects_counts :
    ∀ (mode : Mode) (hasOnSuccess : Bool) (stateId : Option String),
      (onSuccessEffects mode hasOnSuccess stateId).countP isSuccessToast = 1 ∧
      (onSuccessEffects mode hasOnSuccess stateId).countP isListInvalidation = 1 ∧
      (onSuccessEffects mode hasOnSuccess stateId).countP isItemInvalidation =
        (if mode == Mode.edit then 1 else 0) ∧
      (onSuccessEffects mode hasOnSuccess stateId).countP isCallbackEffect =
        (if hasOnSuccess then 1 else 0) ∧
      (onSuccessEffects mode hasOnSuccess stateId).countP isNavigateEffect =
        (if hasOnSuccess then 0 else 1) ∧
      (onSuccessEffects mode hasOnSuccess stateId).countP isCompletionEffect = 1 := by
  intro mode hasOnSuccess stateId
  cases mode <;> cases hasOnSuccess <;>
    simp [onSuccessEffects, createOnSuccessEffects, updateOnSuccessEffects,
      isSuccessToast, isListInvalidation, isItemInvalidation, isCallbackEffect,
      isNavigateEffect, isCompletionEffect, List.countP_cons] <;> decide

/-- C4 counterexample: the error-label mapping does not send the key id to
the label Id. -/
theorem c4_counterexample : (prettifyFieldName "id" == "Id") = false := by decide

/-- C4 amended: the mapping applied to the key id yields the empty string,
because the suffix-stripping step consumes the whole key before
capitalization can apply. -/
theorem c4_prettify_id_is_empty : prettifyFieldName "id" = "" := by decide

/-- C5 counterexample: constructing the form in edit mode without an id does
not fail — the component body runs to completion and merely leaves the fetch
query disabled. -/
theorem c5_counterexample :
    constructStateForm Mode.edit none =
      Except.ok
        { mode := Mode.edit, stateId := none, defaultStateName := "",
          fetchQueryEnabled := false } := rfl

/-- C5 amended: construction succeeds in every configuration; in edit mode
without an id the fetch query is disabled, so the required-id guard inside
the query function never runs and nothing is thrown at construction time. -/
theorem c5_construction_total :
    ∀ (mode : Mode) (stateId : Option String),
      (∃ c, constructStateForm mode stateId = Except.ok c) ∧
      queryEnabled Mode.edit none = false ∧
      mountFetchOutcome Mode.edit none = none := by
  intro mode stateId
  exact ⟨⟨_, rfl⟩, rfl, rfl⟩

/-- C6: while a submission is in flight the submit trigger is disabled, and
pressing it issues no network call. -/
theorem c6_no_call_while_submitting :
    ∀ (s : FormUIState) (stateId : Option String) (name : String),
      isSubmitting s = true →
      submitTriggerDisabled s = true ∧ pressSubmitTrigger s stateId name = [] := by
  intro s stateId name h
  have hd : submitTriggerDisabled s = true := by
    simp only [submitTriggerDisabled, isFormLoading]
    simp only [isSubmitting] at h
    rcases Bool.or_eq_true_iff.mp h with h1 | h2
    · simp [h1]
    · simp [h2]
  exact ⟨hd, by simp [pressSubmitTrigger, hd]⟩

/-- C6 witness: a concrete state with the create mutation pending. -/
theorem c6_witness :
    isSubmitting ⟨Mode.create, true, false, false, false⟩ = true ∧
    (submitTriggerDisabled ⟨Mode.create, true, false, false, false⟩ = true ∧
     pressSubmitTrigger ⟨Mode.create, true, false, false, false⟩ none "Texas" = []) :=
  ⟨rfl, c6_no_call_while_submitting ⟨Mode.create, true, false, false, false⟩ none "Texas" rfl⟩

/-- C7: in edit mode with a failed fetch the component renders the terminal
fetch-failed branch, which offers no submit trigger; its only affordance is
the navigation back to the listing, and the query is configured to never
retry. -/
theorem c7_fetch_failure_terminal :
    ∀ (s : FormUIState),
      s.mode = Mode.edit → s.fetchError = true → s.isFetchingState = false →
      render s = RenderedView.fetchFailedView ∧
      viewOffersSubmit (render s) = false ∧
      fetchFailedViewActions = [FormEffect.navigate "/states"] ∧
      stateQueryRetry = false := by
  intro s h1 h2 h3
  have hb : (Mode.edit == Mode.edit) = true := rfl
  have hr : render s = RenderedView.fetchFailedView := by
    simp [render, h1, h2, h3, hb]
  exact ⟨hr, by rw [hr]; rfl, rfl, rfl⟩

/-- C7 witness: a concrete edit-mode state whose fetch errored. -/
theorem c7_witness :
    render ⟨Mode.edit, false, false, false, true⟩ = RenderedView.fetchFailedView ∧
    viewOffersSubmit (render ⟨Mode.edit, false, false, false, true⟩) = false ∧
    fetchFailedViewActions = [FormEffect.navigate "/states"] ∧
    stateQueryRetry = false :=
  c7_fetch_failure_terminal ⟨Mode.edit, false, false, false, true⟩ rfl rfl rfl

/-- C9: the create success handler resets the field to the default empty
value exactly once, and it does so before the single completion action; the
update success handler performs no reset at all. -/
theorem c9_reset_only_on_create :
    ∀ (hasOnSuccess : Bool) (stateId : Option String),
      (createOnSuccessEffects hasOnSuccess).countP
        (fun e => e == FormEffect.formReset "") = 1 ∧
      (createOnSuccessEffects hasOnSuccess).findIdx isFormResetEffect <
        (createOnSuccessEffects hasOnSuccess).findIdx isCompletionEffect ∧
      (updateOnSuccessEffects hasOnSuccess stateId).countP isFormResetEffect = 0 := by
  intro hasOnSuccess stateId
  cases hasOnSuccess <;>
    refine ⟨by decide, by decide, ?_⟩ <;>
    simp [updateOnSuccessEffects, isFormResetEffect, List.countP_cons]

/-- C10: after a successful edit-mode fetch the field value becomes the
fetched name when one is present, collapsing an absent or empty name to the
empty string — the stored value is always a genuine string. -/
theorem c10_field_value_after_fetch :
    ∀ (d : StateData) (current : String),
      formValueAfterDataLoaded Mode.edit (some d) current = d.stateName.getD "" ∧
      jsOrEmpty (some "") = "" ∧
      jsOrEmpty none = "" := by
  intro d current
  refine ⟨?_, rfl, rfl⟩
  cases h : d.stateName with
  | none => simp [formValueAfterDataLoaded, jsOrEmpty, h]
  | some v =>
    by_cases hv : v = "" <;> simp [formValueAfterDataLoaded, jsOrEmpty, h, hv]

end StateForm
